import Mathlib

/-!
Verification development for the devicedb cluster node, sync bucket proxies,
bucket update monitor, and API client.  Definitions are shallow embeddings of
the Go source: pure functions become Lean functions, effectful functions take
an explicit environment describing the outcomes of their external calls and
return a result together with a trace of the actions they performed.
-/

set_option linter.unusedVariables false

namespace DeviceDB

/-- The structured error values of the `devicedb/error` package together with
the sentinel errors used by the node package (`ERemoved`, `ECancelled`,
`EDecommissioned`, `EStopped` and friends).  `other` stands for any error value
produced outside this taxonomy. -/
inductive Err where
  | eRemoved
  | eCancelled
  | eDecommissioned
  | eStopped
  | eDuplicateNodeID
  | eNoQuorum
  | eNoSuchPartition
  | eNoSuchSite
  | eNoSuchBucket
  | eNoLocalBucket
  | noNodeOwnsPartition
  | other (code : Nat)
  deriving DecidableEq, Repr

/-! ## Bucket update monitor (C1)

Modelled from the spec: the `devicedb/bucket` Monitor implementation is not in
the repository (only its test suite is).  The listener state machine below
follows the spec's invariant section: deliveries to a single listener are
strictly monotonically increasing in `LocalVersion` starting from
`lastDeliveredVersion+1`; updates with `LocalVersion == 0` are delivered only
when `lastDeliveredVersion == 0`; updates with `LocalVersion ≤
lastDeliveredVersion` (and > 0) are discarded; out-of-order updates (gap > 1)
are buffered until the gap fills, then drained in order. -/

/-- Opaque model of `data.SiblingSet` (its internals are irrelevant to the
monitor's version gating). -/
structure SiblingSet where
  deriving DecidableEq, Repr

/-- Model of `data.Row`: the update messages delivered by the monitor. -/
structure Row where
  key : String
  localVersion : Nat
  siblings : Option SiblingSet
  deriving DecidableEq, Repr

/-- State of a single registered listener: the version of the last delivered
update and the buffer of out-of-order updates waiting for their gap to fill. -/
structure ListenerState where
  lastDeliveredVersion : Nat
  buffer : List Row
  deriving DecidableEq, Repr

/-- Remove from the buffer the first row whose `localVersion` equals `v`,
returning it together with the remaining buffer. -/
def extractRow (v : Nat) : List Row → Option (Row × List Row)
  | [] => none
  | r :: rest =>
    if r.localVersion = v then
      some (r, rest)
    else
      match extractRow v rest with
      | none => none
      | some (r2, rest2) => some (r2, r :: rest2)

theorem extractRow_length {v : Nat} :
    ∀ {l : List Row} {r : Row} {rest : List Row},
      extractRow v l = some (r, rest) → rest.length < l.length := by
  intro l
  induction l with
  | nil => intro r rest h; simp [extractRow] at h
  | cons a as ih =>
    intro r rest h
    simp only [extractRow] at h
    by_cases ha : a.localVersion = v
    · simp [ha] at h
      simp [← h.2]
    · simp only [ha, if_neg, ite_false] at h
      cases hrec : extractRow v as with
      | none => rw [hrec] at h; simp at h
      | some p =>
        obtain ⟨r2, rest2⟩ := p
        rw [hrec] at h
        simp at h
        have hlt := ih hrec
        rw [← h.2]
        simp only [List.length_cons]
        omega

theorem extractRow_version {v : Nat} :
    ∀ {l : List Row} {r : Row} {rest : List Row},
      extractRow v l = some (r, rest) → r.localVersion = v := by
  intro l
  induction l with
  | nil => intro r rest h; simp [extractRow] at h
  | cons a as ih =>
    intro r rest h
    simp only [extractRow] at h
    by_cases ha : a.localVersion = v
    · simp [ha] at h
      rw [← h.1]; exact ha
    · simp only [ha, if_neg, ite_false] at h
      cases hrec : extractRow v as with
      | none => rw [hrec] at h; simp at h
      | some p =>
        obtain ⟨r2, rest2⟩ := p
        rw [hrec] at h
        simp at h
        have hv2 := ih hrec
        rw [← h.1]
        exact hv2

/-- Drain the buffer after a delivery advanced `lastDeliveredVersion` to
`last`: repeatedly extract and deliver the buffered update with version
`last + 1` while one exists.  Returns the new `lastDeliveredVersion`, the new
buffer, and the list of drained deliveries in delivery order. -/
def drain (last : Nat) (buf : List Row) : Nat × List Row × List Row :=
  match h : extractRow (last + 1) buf with
  | none => (last, buf, [])
  | some (r, rest) =>
    let res := drain (last + 1) rest
    (res.1, res.2.1, r :: res.2.2)
termination_by buf.length
decreasing_by exact extractRow_length h

/-- One `Notify` step for a single listener, modelled from the spec.  Returns
the new listener state and the list of updates delivered by this step, in
delivery order. -/
def notify (s : ListenerState) (row : Row) : ListenerState × List Row :=
  if row.localVersion = 0 then
    if s.lastDeliveredVersion = 0 then (s, [row]) else (s, [])
  else if row.localVersion ≤ s.lastDeliveredVersion then
    (s, [])
  else if row.localVersion = s.lastDeliveredVersion + 1 then
    let res := drain row.localVersion s.buffer
    (⟨res.1, res.2.1⟩, row :: res.2.2)
  else
    (⟨s.lastDeliveredVersion, row :: s.buffer⟩, [])

theorem drain_eq_none {last : Nat} {buf : List Row}
    (h : extractRow (last + 1) buf = none) : drain last buf = (last, buf, []) := by
  rw [drain]
  split <;> simp_all

theorem drain_eq_some {last : Nat} {buf : List Row} {r : Row} {rest : List Row}
    (h : extractRow (last + 1) buf = some (r, rest)) :
    drain last buf =
      ((drain (last + 1) rest).1, (drain (last + 1) rest).2.1,
        r :: (drain (last + 1) rest).2.2) := by
  rw [drain]
  split <;> simp_all

/-- Draining delivers a gap-free run of versions `last+1, last+2, …` in order,
and advances `lastDeliveredVersion` by exactly the number of drained rows. -/
theorem drain_spec (last : Nat) (buf : List Row) :
    (drain last buf).1 = last + (drain last buf).2.2.length ∧
    (drain last buf).2.2.map Row.localVersion =
      List.range' (last + 1) (drain last buf).2.2.length := by
  induction last, buf using drain.induct with
  | case1 last buf h =>
    rw [drain_eq_none h]
    simp
  | case2 last buf r rest h ih =>
    have hver : r.localVersion = last + 1 := extractRow_version h
    rw [drain_eq_some h]
    simp only [List.length_cons, List.map_cons]
    refine ⟨by omega, ?_⟩
    rw [List.range'_succ, hver]
    exact congrArg₂ _ rfl ih.2

/-- C1: For every listener registered on a bucket update monitor, delivered
updates are strictly monotonically increasing in `LocalVersion` starting from
`lastDeliveredVersion + 1`: an update with `0 < LocalVersion ≤
lastDeliveredVersion` is discarded; an update with `LocalVersion =
lastDeliveredVersion + 1` is delivered immediately, followed in order by the
gap-free run of buffered successors (the delivered versions form the
consecutive range starting at `lastDeliveredVersion + 1`, and
`lastDeliveredVersion` advances by the number of deliveries); an update with
`LocalVersion > lastDeliveredVersion + 1` is buffered and nothing is
delivered; an update with `LocalVersion = 0` is delivered only while
`lastDeliveredVersion = 0` and discarded afterward. -/
theorem monitor_notify_spec (s : ListenerState) (row : Row) :
    (0 < row.localVersion → row.localVersion ≤ s.lastDeliveredVersion →
      notify s row = (s, [])) ∧
    (row.localVersion = s.lastDeliveredVersion + 1 →
      (notify s row).2.head? = some row ∧
      (notify s row).2.map Row.localVersion =
        List.range' (s.lastDeliveredVersion + 1) (notify s row).2.length ∧
      (notify s row).1.lastDeliveredVersion =
        s.lastDeliveredVersion + (notify s row).2.length) ∧
    (row.localVersion > s.lastDeliveredVersion + 1 →
      notify s row = (⟨s.lastDeliveredVersion, row :: s.buffer⟩, [])) ∧
    (row.localVersion = 0 →
      notify s row = (s, if s.lastDeliveredVersion = 0 then [row] else [])) := by
  refine ⟨?_, ?_, ?_, ?_⟩
  · intro h0 hle
    unfold notify
    rw [if_neg (by omega), if_pos hle]
  · intro heq
    have hd := drain_spec row.localVersion s.buffer
    unfold notify
    rw [if_neg (by omega), if_neg (by omega), if_pos heq]
    simp only [List.head?_cons, List.map_cons, List.length_cons]
    refine ⟨trivial, ?_, ?_⟩
    · rw [← heq, List.range'_succ]
      exact congrArg₂ _ rfl hd.2
    · have := hd.1
      omega
  · intro hgt
    unfold notify
    rw [if_neg (by omega), if_neg (by omega), if_neg (by omega)]
  · intro h0
    unfold notify
    rw [if_pos h0]
    split_ifs <;> rfl

theorem monitor_notify_spec_witness :
    notify ⟨3, []⟩ ⟨"abc", 1, none⟩ = (⟨3, []⟩, []) ∧
    (notify ⟨3, [⟨"b", 5, none⟩]⟩ ⟨"a", 4, none⟩).2.map Row.localVersion =
      List.range' 4 (notify ⟨3, [⟨"b", 5, none⟩]⟩ ⟨"a", 4, none⟩).2.length ∧
    notify ⟨3, []⟩ ⟨"c", 9, none⟩ = (⟨3, [⟨"c", 9, none⟩]⟩, []) ∧
    notify ⟨3, []⟩ ⟨"d", 0, none⟩ =
      (⟨3, []⟩, if (3 : Nat) = 0 then [⟨"d", 0, none⟩] else []) :=
  ⟨(monitor_notify_spec ⟨3, []⟩ ⟨"abc", 1, none⟩).1 (by decide) (by decide),
   (((monitor_notify_spec ⟨3, [⟨"b", 5, none⟩]⟩ ⟨"a", 4, none⟩).2.1 (by decide)).2.1),
   (monitor_notify_spec ⟨3, []⟩ ⟨"c", 9, none⟩).2.2.1 (by decide),
   (monitor_notify_spec ⟨3, []⟩ ⟨"d", 0, none⟩).2.2.2 (by decide)⟩

/-! ## CloudResponderMerkleNodeIterator (C10)

Embedding of the iterator over `rest.MerkleKeys.Keys` from
`sync/bucket_proxy.go`.  The element value type (`*data.SiblingSet` in Go) is
kept abstract as `α`. -/

/-- One entry of `rest.MerkleKeys.Keys`: a key together with its value. -/
structure MerkleKeyEntry (α : Type) where
  key : String
  value : α
  deriving DecidableEq, Repr

/-- The iterator state: the key list and the `CurrentIndex` field (a Go `int`,
hence `Int` here, since it starts at `-1`). -/
structure CloudResponderMerkleNodeIterator (α : Type) where
  merkleKeys : List (MerkleKeyEntry α)
  currentIndex : Int
  deriving DecidableEq, Repr

/-- `Next`: advance the iterator, returning the new state and whether an entry
is available. -/
def iterNext {α : Type} (it : CloudResponderMerkleNodeIterator α) :
    CloudResponderMerkleNodeIterator α × Bool :=
  if it.currentIndex ≥ (it.merkleKeys.length : Int) - 1 then
    ({ it with currentIndex := (it.merkleKeys.length : Int) }, false)
  else
    ({ it with currentIndex := it.currentIndex + 1 }, true)

/-- `Key`: the current entry's key, or `none` (Go `nil`) when the index is out
of range or the list is empty. -/
def iterKey {α : Type} (it : CloudResponderMerkleNodeIterator α) : Option String :=
  if it.currentIndex < 0 ∨ it.merkleKeys.length = 0 ∨
      (it.merkleKeys.length : Int) ≤ it.currentIndex then
    none
  else
    (it.merkleKeys.get? it.currentIndex.toNat).map MerkleKeyEntry.key

/-- `Value`: the current entry's sibling set, or `none` when out of range. -/
def iterValue {α : Type} (it : CloudResponderMerkleNodeIterator α) : Option α :=
  if it.currentIndex < 0 ∨ it.merkleKeys.length = 0 ∨
      (it.merkleKeys.length : Int) ≤ it.currentIndex then
    none
  else
    (it.merkleKeys.get? it.currentIndex.toNat).map MerkleKeyEntry.value

/-- `Error`: always `nil`. -/
def iterError {α : Type} (it : CloudResponderMerkleNodeIterator α) : Option Err :=
  none

/-- The iterator as constructed by `CloudRemoteBucketProxy.GetSyncChildren`:
`CurrentIndex` starts at `-1`. -/
def initIter {α : Type} (keys : List (MerkleKeyEntry α)) :
    CloudResponderMerkleNodeIterator α := ⟨keys, -1⟩

/-- The iterator state after `n` calls to `Next`. -/
def iterSteps {α : Type} (it : CloudResponderMerkleNodeIterator α) :
    Nat → CloudResponderMerkleNodeIterator α
  | 0 => it
  | n + 1 => (iterNext (iterSteps it n)).1

theorem iterSteps_le {α : Type} (keys : List (MerkleKeyEntry α)) :
    ∀ k, k ≤ keys.length → iterSteps (initIter keys) k = ⟨keys, (k : Int) - 1⟩ := by
  intro k
  induction k with
  | zero => intro _; simp [iterSteps, initIter]
  | succ n ih =>
    intro h
    simp only [iterSteps]
    rw [ih (by omega)]
    unfold iterNext
    rw [if_neg (by simp; omega)]
    simp

theorem iterSteps_gt {α : Type} (keys : List (MerkleKeyEntry α)) :
    ∀ k, keys.length < k → iterSteps (initIter keys) k = ⟨keys, (keys.length : Int)⟩ := by
  intro k
  induction k with
  | zero => intro h; omega
  | succ n ih =>
    intro h
    simp only [iterSteps]
    rcases Nat.lt_or_ge keys.length n with hn | hn
    · rw [ih hn]
      unfold iterNext
      rw [if_pos (by simp)]
    · have hn2 : n = keys.length := by omega
      rw [iterSteps_le keys n (by omega), hn2]
      unfold iterNext
      rw [if_pos (by simp)]

/-- C10: Starting from `CurrentIndex = -1`, the iterator yields exactly the
entries of `MerkleKeys.Keys` in list order: `Next` returns `true` exactly
`len(Keys)` times, after which it returns `false` and pins `CurrentIndex` at
`len(Keys)`; `Key` and `Value` return the current entry's key and sibling set
while the index is in range and `nil` before the first `Next`, after
exhaustion, or when the list is empty; `Error` always returns `nil`. -/
theorem merkle_iterator_spec {α : Type} (keys : List (MerkleKeyEntry α)) :
    (∀ k, k < keys.length → (iterNext (iterSteps (initIter keys) k)).2 = true) ∧
    (∀ k, keys.length ≤ k →
      (iterNext (iterSteps (initIter keys) k)).2 = false ∧
      (iterNext (iterSteps (initIter keys) k)).1.currentIndex = (keys.length : Int)) ∧
    (∀ k, k < keys.length →
      iterKey (iterSteps (initIter keys) (k + 1)) = (keys.get? k).map MerkleKeyEntry.key ∧
      iterValue (iterSteps (initIter keys) (k + 1)) = (keys.get? k).map MerkleKeyEntry.value) ∧
    iterKey (initIter keys) = none ∧
    iterValue (initIter keys) = none ∧
    (∀ k, keys.length ≤ k →
      iterKey (iterSteps (initIter keys) (k + 1)) = none ∧
      iterValue (iterSteps (initIter keys) (k + 1)) = none) ∧
    (∀ it : CloudResponderMerkleNodeIterator α, iterError it = none) := by
  refine ⟨?_, ?_, ?_, ?_, ?_, ?_, ?_⟩
  · intro k hk
    rw [iterSteps_le keys k (by omega)]
    unfold iterNext
    rw [if_neg (by simp; omega)]
  · intro k hk
    rcases Nat.eq_or_lt_of_le hk with h | h
    · rw [iterSteps_le keys k (by omega), ← h]
      unfold iterNext
      rw [if_pos (by simp)]
      exact ⟨rfl, rfl⟩
    · rw [iterSteps_gt keys k h]
      unfold iterNext
      rw [if_pos (by simp)]
      exact ⟨rfl, rfl⟩
  · intro k hk
    rw [iterSteps_le keys (k + 1) (by omega)]
    unfold iterKey iterValue
    rw [if_neg (by push_cast; omega), if_neg (by push_cast; omega)]
    have : (((k : Int) + 1) - 1).toNat = k := by omega
    constructor <;> simp [this]
  · unfold iterKey initIter
    rw [if_pos (by simp)]
  · unfold iterValue initIter
    rw [if_pos (by simp)]
  · intro k hk
    rw [iterSteps_gt keys (k + 1) (by omega)]
    unfold iterKey iterValue
    rw [if_pos (by simp), if_pos (by simp)]
    exact ⟨rfl, rfl⟩
  · intro it
    rfl

theorem merkle_iterator_spec_witness :
    (iterNext (iterSteps (initIter [⟨"a", (1 : Nat)⟩, ⟨"b", 2⟩]) 0)).2 = true ∧
    (iterNext (iterSteps (initIter [⟨"a", (1 : Nat)⟩, ⟨"b", 2⟩]) 2)).2 = false ∧
    iterKey (iterSteps (initIter [⟨"a", (1 : Nat)⟩, ⟨"b", 2⟩]) 1) =
      ([(⟨"a", 1⟩ : MerkleKeyEntry Nat), ⟨"b", 2⟩].get? 0).map MerkleKeyEntry.key ∧
    iterError (initIter [⟨"a", (1 : Nat)⟩, ⟨"b", 2⟩]) = none :=
  ⟨(merkle_iterator_spec [⟨"a", 1⟩, ⟨"b", 2⟩]).1 0 (by decide),
   ((merkle_iterator_spec [⟨"a", 1⟩, ⟨"b", 2⟩]).2.1 2 (by decide)).1,
   ((merkle_iterator_spec [⟨"a", 1⟩, ⟨"b", 2⟩]).2.2.1 0 (by decide)).1,
   (merkle_iterator_spec [⟨"a", 1⟩, ⟨"b", 2⟩]).2.2.2.2.2.2 (initIter [⟨"a", 1⟩, ⟨"b", 2⟩])⟩

/-! ## Durable storage layout (C7) -/

/-- `RaftStoreStoragePrefix` from the node package (first `iota`, hence 0). -/
def RaftStoreStoragePrefixVal : Nat := 0

/-- `SiteStoreStoragePrefix` from the node package (second `iota`, hence 1). -/
def SiteStoreStoragePrefixVal : Nat := 1

/-- `binary.BigEndian.PutUint64`: the 8-byte big-endian encoding of `v`. -/
def putUint64BigEndian (v : Nat) : List Nat :=
  [v / 2 ^ 56 % 256, v / 2 ^ 48 % 256, v / 2 ^ 40 % 256, v / 2 ^ 32 % 256,
   v / 2 ^ 24 % 256, v / 2 ^ 16 % 256, v / 2 ^ 8 % 256, v % 256]

/-- `ClusterNode.sitePoolStorePrefix`: a 9-byte buffer whose first byte is
`SiteStoreStoragePrefix` and whose remaining 8 bytes are the partition number
in big-endian order. -/
def sitePoolStorePrefixBytes (partitionNumber : Nat) : List Nat :=
  SiteStoreStoragePrefixVal :: putUint64BigEndian partitionNumber

/-- The byte slice wrapped around the raft store's storage driver in `New`:
`NewPrefixedStorageDriver([]byte{ RaftStoreStoragePrefix }, ...)`. -/
def raftStoreDriverPrefixBytes : List Nat := [RaftStoreStoragePrefixVal]

/-- Big-endian decoding, to state that the 8 bytes really encode `p`. -/
def bigEndianValue (bytes : List Nat) : Nat :=
  bytes.foldl (fun a b => a * 256 + b) 0

/-- C7: The raft store is wrapped in a prefixed driver with the single byte
`0x00`, and for every partition number `p < 2^64` the site-pool storage prefix
is exactly the 9-byte sequence `0x01` followed by the 8-byte big-endian
encoding of `p` (each byte below 256, and decoding recovers `p`). -/
theorem storage_layout_spec (p : Nat) (hp : p < 2 ^ 64) :
    raftStoreDriverPrefixBytes = [0] ∧
    (sitePoolStorePrefixBytes p).length = 9 ∧
    sitePoolStorePrefixBytes p = 1 :: putUint64BigEndian p ∧
    (∀ b ∈ sitePoolStorePrefixBytes p, b < 256) ∧
    bigEndianValue (putUint64BigEndian p) = p := by
  refine ⟨rfl, rfl, rfl, ?_, ?_⟩
  · intro b hb
    simp [sitePoolStorePrefixBytes, putUint64BigEndian,
      SiteStoreStoragePrefixVal] at hb
    rcases hb with h | h | h | h | h | h | h | h | h <;> omega
  · simp only [bigEndianValue, putUint64BigEndian, List.foldl]
    omega

theorem storage_layout_spec_witness :
    (sitePoolStorePrefixBytes 81985529216486895).length = 9 ∧
    bigEndianValue (putUint64BigEndian 81985529216486895) = 81985529216486895 :=
  ⟨(storage_layout_spec 81985529216486895 (by norm_num)).2.1,
   (storage_layout_spec 81985529216486895 (by norm_num)).2.2.2.2⟩

/-! ## APIClient data-method stubs (C8)

Embedding of `client/api_client.go`.  Effectful methods return the (possibly
updated) client, the list of HTTP requests they issued, and their Go results.
The stubbed data methods issue no request and touch neither field. -/

/-- The `APIClient` struct (the `http.Client` handle carries no model state). -/
structure APIClient where
  servers : List String
  nextServerIndex : Nat
  deriving DecidableEq, Repr

/-- One HTTP request as issued through `sendRequest`. -/
structure HTTPRequest where
  verb : String
  endpointURL : String
  deriving DecidableEq, Repr

/-- Opaque model of the `client.Batch` argument type. -/
structure ClientBatch where
  deriving DecidableEq, Repr

/-- Opaque model of the `client.Entry` type. -/
structure Entry where
  deriving DecidableEq, Repr

/-- Model of the `client.EntryIterator` type; `EntryIterator{}` is its zero
value. -/
structure EntryIterator where
  deriving DecidableEq, Repr

/-- `APIClient.Batch`: `return nil`. -/
def apiClientBatch (c : APIClient) (siteID : String) (b : ClientBatch) :
    APIClient × List HTTPRequest × Option Err :=
  (c, [], none)

/-- `APIClient.Get`: `return nil, nil` (a nil entry slice and a nil error). -/
def apiClientGet (c : APIClient) (siteID : String) (keys : List String) :
    APIClient × List HTTPRequest × Option (List Entry) × Option Err :=
  (c, [], none, none)

/-- `APIClient.GetMatches`: `return EntryIterator{}, nil`. -/
def apiClientGetMatches (c : APIClient) (siteID : String) (keys : List String) :
    APIClient × List HTTPRequest × EntryIterator × Option Err :=
  (c, [], ⟨⟩, none)

/-- C8: The APIClient data methods are stubs: for every client state, site ID
and argument list, `Batch` returns `nil`, `Get` returns `(nil, nil)`, and
`GetMatches` returns `(EntryIterator{}, nil)`, in all cases leaving the client
unchanged, performing no HTTP request and never returning an error. -/
theorem api_client_stub_spec (c : APIClient) (siteID : String) (b : ClientBatch)
    (keys : List String) :
    apiClientBatch c siteID b = (c, [], none) ∧
    apiClientGet c siteID keys = (c, [], none, none) ∧
    apiClientGetMatches c siteID keys = (c, [], ⟨⟩, none) :=
  ⟨rfl, rfl, rfl⟩

/-! ## Bucket proxy merge/forget behaviour (C4) -/

/-- Abstract model of a `Bucket`: a name together with the state-transforming
`Merge` and `Forget` operations of the underlying bucket.  `σ` is the bucket
state, `ρ` the patch type (`map[string]*SiblingSet`). -/
structure BucketModel (σ ρ : Type) where
  name : String
  mergeOp : σ → ρ → σ × Option Err
  forgetOp : σ → List (List Nat) → σ × Option Err

/-- `RelayBucketProxy`: a direct handle on a local bucket. -/
structure RelayBucketProxy (σ ρ : Type) where
  bucket : BucketModel σ ρ
  siteID : String

/-- `CloudLocalBucketProxy`: a local replica handle used by cloud sync. -/
structure CloudLocalBucketProxy (σ ρ : Type) where
  bucket : BucketModel σ ρ
  siteID : String

/-- `CloudRemoteBucketProxy`: an HTTP client proxy to another node. -/
structure CloudRemoteBucketProxy where
  siteID : String
  bucketName : String

/-- `RelayBucketProxy.Merge`: forwards to the underlying bucket's `Merge`. -/
def relayProxyMerge {σ ρ : Type} (p : RelayBucketProxy σ ρ) (s : σ)
    (mergedKeys : ρ) : σ × Option Err :=
  p.bucket.mergeOp s mergedKeys

/-- `RelayBucketProxy.Forget`: forwards to the underlying bucket's `Forget`. -/
def relayProxyForget {σ ρ : Type} (p : RelayBucketProxy σ ρ) (s : σ)
    (keys : List (List Nat)) : σ × Option Err :=
  p.bucket.forgetOp s keys

/-- `CloudLocalBucketProxy.Merge`: `return nil`, no state change. -/
def cloudLocalProxyMerge {σ ρ : Type} (p : CloudLocalBucketProxy σ ρ) (s : σ)
    (mergedKeys : ρ) : σ × Option Err :=
  (s, none)

/-- `CloudLocalBucketProxy.Forget`: `return nil`, no state change. -/
def cloudLocalProxyForget {σ ρ : Type} (p : CloudLocalBucketProxy σ ρ) (s : σ)
    (keys : List (List Nat)) : σ × Option Err :=
  (s, none)

/-- `CloudRemoteBucketProxy.Merge`: `return nil`, no state change. -/
def cloudRemoteProxyMerge {σ : Type} {ρ : Type} (p : CloudRemoteBucketProxy)
    (s : σ) (mergedKeys : ρ) : σ × Option Err :=
  (s, none)

/-- `CloudRemoteBucketProxy.Forget`: `return nil`, no state change. -/
def cloudRemoteProxyForget {σ : Type} (p : CloudRemoteBucketProxy) (s : σ)
    (keys : List (List Nat)) : σ × Option Err :=
  (s, none)

/-- C4: For every patch and every key list, `CloudLocalBucketProxy.Merge`,
`CloudLocalBucketProxy.Forget`, `CloudRemoteBucketProxy.Merge` and
`CloudRemoteBucketProxy.Forget` return `nil` and leave the underlying bucket
state completely unchanged, whereas `RelayBucketProxy.Merge` forwards the
patch to the underlying bucket's `Merge`. -/
theorem proxy_merge_noop_spec {σ ρ : Type} (pl : CloudLocalBucketProxy σ ρ)
    (pr : CloudRemoteBucketProxy) (prl : RelayBucketProxy σ ρ) (s : σ) (patch : ρ)
    (keys : List (List Nat)) :
    cloudLocalProxyMerge pl s patch = (s, none) ∧
    cloudLocalProxyForget pl s keys = (s, none) ∧
    cloudRemoteProxyMerge pr s patch = (s, none) ∧
    cloudRemoteProxyForget pr s keys = (s, none) ∧
    relayProxyMerge prl s patch = prl.bucket.mergeOp s patch :=
  ⟨rfl, rfl, rfl, rfl, rfl⟩

/-! ## ClusterNode.Batch and ClusterNode.Merge (C9)

Embedding of the local write paths of the node package for a fixed
`(partition, site, bucket)` triple.  The environment records which lookups
succeed, whether `LocalNodeHoldsPartition` is true, the current bucket state,
and the bucket's own `Batch`/`Merge` operations (`β` bucket state, `υ` update
batch type, `ρ` patch type). -/

structure NodeIOEnv (β υ ρ : Type) where
  partitionInPool : Bool
  siteInPartition : Bool
  bucketState : Option β
  holdsPartition : Bool
  bucketBatch : β → υ → β × Except Err ρ
  bucketMerge : β → ρ → β × Option Err

/-- `ClusterNode.Batch`: lookups, then the `LocalNodeHoldsPartition` check,
then `bucket.Batch`.  Returns the bucket state after the call and the Go
result `(patch, err)`. -/
def clusterNodeBatch {β υ ρ : Type} (env : NodeIOEnv β υ ρ) (updateBatch : υ) :
    Option β × Except Err ρ :=
  if ¬ env.partitionInPool then (env.bucketState, .error .eNoSuchPartition)
  else if ¬ env.siteInPartition then (env.bucketState, .error .eNoSuchSite)
  else
    match env.bucketState with
    | none => (none, .error .eNoSuchBucket)
    | some b =>
      if ¬ env.holdsPartition then (some b, .error .eNoQuorum)
      else
        match env.bucketBatch b updateBatch with
        | (b2, .error e) => (some b2, .error e)
        | (b2, .ok patch) => (some b2, .ok patch)

/-- `ClusterNode.Merge`: lookups, then `bucket.Merge`, and only afterwards the
`LocalNodeHoldsPartition` check. -/
def clusterNodeMerge {β υ ρ : Type} (env : NodeIOEnv β υ ρ) (patch : ρ) :
    Option β × Option Err :=
  if ¬ env.partitionInPool then (env.bucketState, some .eNoSuchPartition)
  else if ¬ env.siteInPartition then (env.bucketState, some .eNoSuchSite)
  else
    match env.bucketState with
    | none => (none, some .eNoSuchBucket)
    | some b =>
      match env.bucketMerge b patch with
      | (b2, some e) => (some b2, some e)
      | (b2, none) =>
        if ¬ env.holdsPartition then (some b2, some .eNoQuorum)
        else (some b2, none)

/-- C9: `ClusterNode.Batch` and `ClusterNode.Merge` differ in error atomicity
with respect to `ENoQuorum`: with the partition, site and bucket present but
the partition not held locally, `Batch` returns `ENoQuorum` with the bucket
unchanged (the bucket's own `Batch` is never applied), whereas `Merge` first
applies the patch and only then checks `LocalNodeHoldsPartition`, so when it
returns `ENoQuorum` the bucket state is the one already mutated by the
patch. -/
theorem batch_merge_atomicity_spec {β υ ρ : Type} (env : NodeIOEnv β υ ρ)
    (b : β) (updateBatch : υ) (patch : ρ)
    (hpart : env.partitionInPool = true) (hsite : env.siteInPartition = true)
    (hbucket : env.bucketState = some b) (hhold : env.holdsPartition = false) :
    clusterNodeBatch env updateBatch = (some b, .error .eNoQuorum) ∧
    ((env.bucketMerge b patch).2 = none →
      clusterNodeMerge env patch =
        (some (env.bucketMerge b patch).1, some .eNoQuorum)) := by
  constructor
  · unfold clusterNodeBatch
    rw [hpart, hbucket]
    simp [hsite, hhold]
  · intro hm
    unfold clusterNodeMerge
    rw [hpart, hbucket]
    simp only [hsite, Bool.not_true, Bool.false_eq_true, if_false, ite_false,
      Bool.not_false, if_true, ite_true]
    cases hbm : env.bucketMerge b patch with
    | mk b2 e =>
      rw [hbm] at hm
      simp at hm
      subst hm
      simp [hhold]

theorem batch_merge_atomicity_spec_witness :
    clusterNodeBatch
        (⟨true, true, some 5, false, fun b u => (b + u, .ok u),
          fun b p => (b + p, none)⟩ : NodeIOEnv Nat Nat Nat) 7 =
      (some 5, .error .eNoQuorum) ∧
    clusterNodeMerge
        (⟨true, true, some 5, false, fun b u => (b + u, .ok u),
          fun b p => (b + p, none)⟩ : NodeIOEnv Nat Nat Nat) 7 =
      (some 12, some .eNoQuorum) :=
  ⟨(batch_merge_atomicity_spec
      (⟨true, true, some 5, false, fun b u => (b + u, .ok u),
        fun b p => (b + p, none)⟩ : NodeIOEnv Nat Nat Nat) 5 7 7
      rfl rfl rfl rfl).1,
   (batch_merge_atomicity_spec
      (⟨true, true, some 5, false, fun b u => (b + u, .ok u),
        fun b p => (b + p, none)⟩ : NodeIOEnv Nat Nat Nat) 5 7 7
      rfl rfl rfl rfl).2 rfl⟩

/-! ## Decommissioning (C2) and LeaveCluster idempotence (C6)

`ClusterNode.decommission` is a long-running task whose external calls are
summarised by an environment: the node's config in the cluster config, the
result of the capacity-0 proposal, the held partition replicas, which branch
of the drain select fires, and the result of the `RemoveNode` proposal.
Generic errors returned by proposals are carried as `Err.other code`
(`EDecommissioned`, `ECancelled` and `ERemoved` are only ever produced by
`decommission` itself). -/

/-- `NodeConfig`: capacity and (abstracted) address. -/
structure NodeConfig where
  capacity : Nat
  address : Nat
  deriving DecidableEq, Repr

/-- Which branch of the drain select fires first. -/
inductive DrainWaitEvent where
  | leftCluster
  | empty
  | ctxDone
  deriving DecidableEq, Repr

/-- Environment of one `ClusterNode.decommission` run. -/
structure DecommissionEnv where
  localNodeConfig : Option NodeConfig
  giveUpTokensResult : Option Nat
  heldPartitionReplicas : List Nat
  partitionInPool : Nat → Bool
  drainWaitEvent : DrainWaitEvent
  removeNodeResult : Option Nat

/-- The externally visible actions of a decommission run, in order. -/
inductive DecommissionAction where
  | proposeUpdateNodeCapacityZero (nodeID : Nat)
  | stopAllTransfers
  | enableOutgoingTransfersAndLockWrites (partition : Nat)
  | waitForDrain
  | proposeRemoveNode (nodeID : Nat)
  deriving DecidableEq, Repr

/-- The per-partition locking actions of step 2/4 (only partitions still in
the partition pool are locked). -/
def lockActions (env : DecommissionEnv) : List DecommissionAction :=
  (env.heldPartitionReplicas.filter env.partitionInPool).map
    DecommissionAction.enableOutgoingTransfersAndLockWrites

/-- Step 4/4 of `decommission`: propose `RemoveNode`; its error is returned
as-is, success yields `EDecommissioned`. -/
def decommissionFinish (nodeID : Nat) (env : DecommissionEnv)
    (trace : List DecommissionAction) : Err × List DecommissionAction :=
  match env.removeNodeResult with
  | some code => (.other code, trace ++ [.proposeRemoveNode nodeID])
  | none => (.eDecommissioned, trace ++ [.proposeRemoveNode nodeID])

/-- Steps 2/4 and 3/4 of `decommission`: stop transfers, and when partition
replicas are still held, lock them and wait on the drain select. -/
def decommissionAfterTokens (nodeID : Nat) (env : DecommissionEnv)
    (trace : List DecommissionAction) : Err × List DecommissionAction :=
  let t2 := trace ++ [.stopAllTransfers]
  if env.heldPartitionReplicas.isEmpty then
    decommissionFinish nodeID env t2
  else
    let t3 := t2 ++ lockActions env ++ [.waitForDrain]
    match env.drainWaitEvent with
    | .leftCluster => (.eRemoved, t3)
    | .ctxDone => (.eCancelled, t3)
    | .empty => decommissionFinish nodeID env t3

/-- `ClusterNode.decommission`: returns the error value sent into the
`leftClusterResult` channel, together with the trace of actions performed. -/
def decommission (nodeID : Nat) (env : DecommissionEnv) :
    Err × List DecommissionAction :=
  match env.localNodeConfig with
  | none => (.eRemoved, [])
  | some cfg =>
    if cfg.capacity ≠ 0 then
      match env.giveUpTokensResult with
      | some code => (.other code, [.proposeUpdateNodeCapacityZero nodeID])
      | none =>
        decommissionAfterTokens nodeID env [.proposeUpdateNodeCapacityZero nodeID]
    else decommissionAfterTokens nodeID env []

/-- The value the decommission goroutine started by `LeaveCluster` sends into
the `leftClusterResult` channel. -/
def leaveClusterResultValue (nodeID : Nat) (env : DecommissionEnv) : Err :=
  (decommission nodeID env).1

/-- C2: When decommissioning succeeds the result channel of `LeaveCluster`
resolves with `EDecommissioned`, and only after the sequence: the capacity-0
`ClusterUpdateNodeBody` proposal (skipped when the capacity is already 0),
then `StopAllTransfers`, then — when partition replicas are still held —
locking them and waiting on the drain select (which must have delivered the
empty signal), and finally the `RemoveNode` proposal.  When the context is
cancelled during the wait the result is `ECancelled`, and when the node
learns it left the cluster the result is `ERemoved`. -/
theorem decommission_spec (nodeID : Nat) (env : DecommissionEnv) :
    (leaveClusterResultValue nodeID env = (decommission nodeID env).1) ∧
    ((decommission nodeID env).1 = .eDecommissioned →
      env.removeNodeResult = none ∧
      ∃ cfg, env.localNodeConfig = some cfg ∧
        (decommission nodeID env).2 =
          (if cfg.capacity ≠ 0 then
            [DecommissionAction.proposeUpdateNodeCapacityZero nodeID] else []) ++
          [.stopAllTransfers] ++
          (if env.heldPartitionReplicas.isEmpty then []
           else lockActions env ++ [.waitForDrain]) ++
          [.proposeRemoveNode nodeID] ∧
        (¬ env.heldPartitionReplicas.isEmpty → env.drainWaitEvent = .empty)) ∧
    (∀ cfg, env.localNodeConfig = some cfg →
      (cfg.capacity = 0 ∨ env.giveUpTokensResult = none) →
      ¬ env.heldPartitionReplicas.isEmpty →
      env.drainWaitEvent = .ctxDone →
      (decommission nodeID env).1 = .eCancelled) ∧
    (∀ cfg, env.localNodeConfig = some cfg →
      (cfg.capacity = 0 ∨ env.giveUpTokensResult = none) →
      ¬ env.heldPartitionReplicas.isEmpty →
      env.drainWaitEvent = .leftCluster →
      (decommission nodeID env).1 = .eRemoved) := by
  refine ⟨rfl, ?_, ?_, ?_⟩
  · intro hsucc
    cases hcfg : env.localNodeConfig with
    | none => simp [decommission, hcfg] at hsucc
    | some cfg =>
      simp only [decommission, hcfg] at hsucc ⊢
      by_cases hcap : cfg.capacity ≠ 0
      · rw [if_pos hcap] at hsucc ⊢
        cases hgu : env.giveUpTokensResult with
        | some code => simp [hgu] at hsucc
        | none =>
          simp only [hgu] at hsucc ⊢
          unfold decommissionAfterTokens at hsucc ⊢
          by_cases hheld : env.heldPartitionReplicas.isEmpty
          · rw [if_pos hheld] at hsucc ⊢
            unfold decommissionFinish at hsucc ⊢
            cases hrn : env.removeNodeResult with
            | some code => simp [hrn] at hsucc
            | none =>
              simp only [hrn]
              exact ⟨by simp, cfg, by simp, by simp [hheld, hcap], by simp [hheld]⟩
          · rw [if_neg hheld] at hsucc ⊢
            cases hev : env.drainWaitEvent with
            | leftCluster => simp [hev] at hsucc
            | ctxDone => simp [hev] at hsucc
            | empty =>
              simp only [hev] at hsucc ⊢
              unfold decommissionFinish at hsucc ⊢
              cases hrn : env.removeNodeResult with
              | some code => simp [hrn] at hsucc
              | none =>
                simp only [hrn]
                exact ⟨by simp, cfg, by simp, by simp [hheld, hcap], by simp [hheld, hev]⟩
      · rw [if_neg hcap] at hsucc ⊢
        unfold decommissionAfterTokens at hsucc ⊢
        by_cases hheld : env.heldPartitionReplicas.isEmpty
        · rw [if_pos hheld] at hsucc ⊢
          unfold decommissionFinish at hsucc ⊢
          cases hrn : env.removeNodeResult with
          | some code => simp [hrn] at hsucc
          | none =>
            simp only [hrn]
            exact ⟨by simp, cfg, by simp, by simp [hheld, hcap], by simp [hheld]⟩
        · rw [if_neg hheld] at hsucc ⊢
          cases hev : env.drainWaitEvent with
          | leftCluster => simp [hev] at hsucc
          | ctxDone => simp [hev] at hsucc
          | empty =>
            simp only [hev] at hsucc ⊢
            unfold decommissionFinish at hsucc ⊢
            cases hrn : env.removeNodeResult with
            | some code => simp [hrn] at hsucc
            | none =>
              simp only [hrn]
              exact ⟨by simp, cfg, by simp, by simp [hheld, hcap], by simp [hheld, hev]⟩
  · intro cfg hcfg hcap hheld hev
    simp only [decommission, hcfg]
    by_cases hc : cfg.capacity ≠ 0
    · have hgu : env.giveUpTokensResult = none := by
        rcases hcap with h0 | hgu
        · exact absurd h0 hc
        · exact hgu
      rw [if_pos hc]
      simp only [hgu]
      unfold decommissionAfterTokens
      rw [if_neg hheld]
      simp only [hev]
    · rw [if_neg hc]
      unfold decommissionAfterTokens
      rw [if_neg hheld]
      simp only [hev]
  · intro cfg hcfg hcap hheld hev
    simp only [decommission, hcfg]
    by_cases hc : cfg.capacity ≠ 0
    · have hgu : env.giveUpTokensResult = none := by
        rcases hcap with h0 | hgu
        · exact absurd h0 hc
        · exact hgu
      rw [if_pos hc]
      simp only [hgu]
      unfold decommissionAfterTokens
      rw [if_neg hheld]
      simp only [hev]
    · rw [if_neg hc]
      unfold decommissionAfterTokens
      rw [if_neg hheld]
      simp only [hev]

theorem decommission_spec_witness :
    (decommission 42
        ⟨some ⟨8, 0⟩, none, [0, 1], fun _ => true, .ctxDone, none⟩).1 =
      Err.eCancelled :=
  (decommission_spec 42
      ⟨some ⟨8, 0⟩, none, [0, 1], fun _ => true, .ctxDone, none⟩).2.2.1
    ⟨8, 0⟩ rfl (Or.inr rfl) (by decide) rfl

/-- The fields of `ClusterNode` touched by `LeaveCluster` (taken with
`node.lock` held, so the call is modelled as one atomic state transition).
Channels and cancel functions are modelled by identifying handles; the
counters record how many times the decommissioning flag was set and how many
decommission tasks were started. -/
structure ClusterNodeState where
  shutdownDecommissioner : Option Nat
  leftClusterResult : Option Nat
  emptyChanGen : Nat
  decommissioningFlagSetCount : Nat
  decommissionTasksStarted : Nat
  nextHandleId : Nat
  deriving DecidableEq, Repr

/-- `ClusterNode.LeaveCluster`: calls `waitForEmpty` (replacing `node.empty`
by a fresh channel), then returns the existing result channel when a
decommissioner is already active; otherwise it sets the decommissioning flag
(whose storage error `setFlagErr`, if any, is returned with a nil channel),
installs the cancel function, creates the result channel and starts the
decommission task.  Returns `((error, result channel), new state)`. -/
def leaveCluster (setFlagErr : Option Nat) (s : ClusterNodeState) :
    (Option Err × Option Nat) × ClusterNodeState :=
  let s0 := { s with emptyChanGen := s.emptyChanGen + 1 }
  match s0.shutdownDecommissioner with
  | some _ => ((none, s0.leftClusterResult), s0)
  | none =>
    match setFlagErr with
    | some code => ((some (.other code), none), s0)
    | none =>
      ((none, some (s0.nextHandleId + 1)),
        { s0 with
          decommissioningFlagSetCount := s0.decommissioningFlagSetCount + 1,
          shutdownDecommissioner := some s0.nextHandleId,
          leftClusterResult := some (s0.nextHandleId + 1),
          nextHandleId := s0.nextHandleId + 2,
          decommissionTasksStarted := s0.decommissionTasksStarted + 1 })

/-- C6: `LeaveCluster` is idempotent.  Whenever a decommissioner is active
(`shutdownDecommissioner` non-nil) a call returns a nil error together with
the stored result channel and changes neither the flag count nor the task
count; in particular, after a successful first call from an idle state, a
second call returns a nil error and the identical channel the first call
returned, without setting the decommissioning flag again and without starting
a second decommission task. -/
theorem leaveCluster_idempotent (s : ClusterNodeState) (setFlagErr : Option Nat)
    (hidle : s.shutdownDecommissioner = none) :
    (∀ s2 : ClusterNodeState, ∀ e : Option Nat, s2.shutdownDecommissioner ≠ none →
      (leaveCluster e s2).1 = (none, s2.leftClusterResult) ∧
      ((leaveCluster e s2).2).decommissioningFlagSetCount =
        s2.decommissioningFlagSetCount ∧
      ((leaveCluster e s2).2).decommissionTasksStarted =
        s2.decommissionTasksStarted) ∧
    ((leaveCluster none s).1).1 = none ∧
    (leaveCluster setFlagErr (leaveCluster none s).2).1 =
      (none, ((leaveCluster none s).1).2) ∧
    ((leaveCluster setFlagErr (leaveCluster none s).2).2).decommissioningFlagSetCount =
      ((leaveCluster none s).2).decommissioningFlagSetCount ∧
    ((leaveCluster setFlagErr (leaveCluster none s).2).2).decommissionTasksStarted =
      ((leaveCluster none s).2).decommissionTasksStarted := by
  constructor
  · intro s2 e hactive
    cases hsd : s2.shutdownDecommissioner with
    | none => exact absurd hsd hactive
    | some d => exact ⟨by simp [leaveCluster, hsd], by simp [leaveCluster, hsd],
        by simp [leaveCluster, hsd]⟩
  · refine ⟨?_, ?_, ?_, ?_⟩ <;> simp [leaveCluster, hidle]

theorem leaveCluster_idempotent_witness :
    (leaveCluster (some 9) (leaveCluster none ⟨none, none, 0, 0, 0, 100⟩).2).1 =
      (none, ((leaveCluster none ⟨none, none, 0, 0, 0, 100⟩).1).2) :=
  (leaveCluster_idempotent ⟨none, none, 0, 0, 0, 100⟩ (some 9) rfl).2.2.1

/-! ## joinCluster retry loop (C3)

Each iteration of the loop issues one `AddNode` RPC; the environment records
its outcome and which branch of the subsequent `select` fires first.  Waits
that complete (the one-minute duplicate-ID window and the
`ClusterJoinRetryTimeout`-second retry sleep) are recorded in seconds. -/

/-- `ClusterJoinRetryTimeout` from the node package (in seconds). -/
def ClusterJoinRetryTimeout : Nat := 5

/-- Outcome of one `AddNode` RPC. -/
inductive AddNodeOutcome where
  | joinedDuringCall
  | ok
  | errDuplicateNodeID
  | errOther (code : Nat)
  deriving DecidableEq, Repr

/-- Which branch of the `select` following the RPC fires first. -/
inductive JoinWaitEvent where
  | joined
  | shutdown
  | timeout
  deriving DecidableEq, Repr

/-- One loop iteration: the RPC outcome and the select branch. -/
structure JoinIteration where
  outcome : AddNodeOutcome
  waitEvent : JoinWaitEvent
  deriving DecidableEq, Repr

/-- Result of running `joinCluster` against a finite iteration trace:
either the function returned (with a nil or non-nil error), or it is still
running/blocked at the end of the trace. -/
inductive JoinResult where
  | returned (e : Option Err)
  | running
  deriving DecidableEq, Repr

/-- `ClusterNode.joinCluster`: the retry loop, returning the result together
with the list of completed wait durations in seconds.  Per iteration: if the
`joinedCluster` signal arrived during the RPC, return nil.  On
`EDuplicateNodeID`, wait up to one minute: `joinedCluster` ⇒ nil, shutdown ⇒
`EStopped`, the minute elapsing ⇒ `EDuplicateNodeID`.  On any other error:
`joinedCluster` ⇒ nil, shutdown ⇒ `EStopped`, the 5-second
`ClusterJoinRetryTimeout` sleep elapsing ⇒ retry.  On success the final
select has no timer, so only `joinedCluster` (nil) or shutdown (`EStopped`)
can resolve it; an exhausted trace leaves it running. -/
def joinCluster : List JoinIteration → JoinResult × List Nat
  | [] => (.running, [])
  | it :: rest =>
    match it.outcome with
    | .joinedDuringCall => (.returned none, [])
    | .errDuplicateNodeID =>
      match it.waitEvent with
      | .joined => (.returned none, [])
      | .shutdown => (.returned (some .eStopped), [])
      | .timeout => (.returned (some .eDuplicateNodeID), [60])
    | .errOther code =>
      match it.waitEvent with
      | .joined => (.returned none, [])
      | .shutdown => (.returned (some .eStopped), [])
      | .timeout =>
        ((joinCluster rest).1, ClusterJoinRetryTimeout :: (joinCluster rest).2)
    | .ok =>
      match it.waitEvent with
      | .joined => (.returned none, [])
      | .shutdown => (.returned (some .eStopped), [])
      | .timeout => (.running, [])

/-- C3: On `EDuplicateNodeID` the node waits up to one minute: nil if
`joinedCluster` arrives in the window, `EStopped` on shutdown, and
`EDuplicateNodeID` once the minute (60 s) elapses.  Any other RPC error leads
to a retry after the 5-second `ClusterJoinRetryTimeout` sleep, with shutdown
during the sleep returning `EStopped`; and whenever the `joinedCluster`
signal decides an iteration (or arrives during the RPC), `joinCluster`
returns nil. -/
theorem joinCluster_spec (it : JoinIteration) (rest : List JoinIteration)
    (code : Nat) :
    (joinCluster (⟨.errDuplicateNodeID, .joined⟩ :: rest) = (.returned none, [])) ∧
    (joinCluster (⟨.errDuplicateNodeID, .shutdown⟩ :: rest) =
      (.returned (some .eStopped), [])) ∧
    (joinCluster (⟨.errDuplicateNodeID, .timeout⟩ :: rest) =
      (.returned (some .eDuplicateNodeID), [60])) ∧
    (joinCluster (⟨.errOther code, .timeout⟩ :: rest) =
      ((joinCluster rest).1, ClusterJoinRetryTimeout :: (joinCluster rest).2)) ∧
    (joinCluster (⟨.errOther code, .shutdown⟩ :: rest) =
      (.returned (some .eStopped), [])) ∧
    (ClusterJoinRetryTimeout = 5) ∧
    (it.waitEvent = .joined ∨ it.outcome = .joinedDuringCall →
      (joinCluster (it :: rest)).1 = .returned none) := by
  refine ⟨rfl, rfl, rfl, rfl, rfl, rfl, ?_⟩
  intro h
  rcases h with h | h
  · obtain ⟨o, w⟩ := it
    cases w with
    | joined => cases o <;> rfl
    | shutdown => simp at h
    | timeout => simp at h
  · obtain ⟨o, w⟩ := it
    cases o with
    | joinedDuringCall => rfl
    | ok => simp at h
    | errDuplicateNodeID => simp at h
    | errOther code => simp at h

theorem joinCluster_spec_witness :
    (joinCluster [⟨.ok, .joined⟩]).1 = .returned none :=
  (joinCluster_spec ⟨.ok, .joined⟩ [] 0).2.2.2.2.2.2 (Or.inl rfl)

/-! ## CloudBucketProxyFactory.CreateBucketProxy (C5)

The factory resolves the peer's site, its partition and the partition owners
through the cluster controller, draws `rand.Uint32()` and picks the owner at
index `rand.Uint32() % uint32(len(nodeIDs))`.  The random draw is passed in
explicitly as `u < 2^32`; the controller and the local partition/site/bucket
lookups are abstracted into environments. -/

/-- The cluster-controller queries used by the cloud factory. -/
structure ClusterControllerEnv where
  localNodeID : Nat
  relaySite : String → String
  partitionOfSite : String → Nat
  partitionOwners : Nat → List Nat
  clusterMemberAddress : Nat → Nat

/-- The local lookups used on the local-owner path of the factory. -/
structure LocalSiteEnv where
  partitionInPool : Nat → Bool
  siteInPartition : Nat → String → Bool
  bucketInSite : Nat → String → String → Bool

/-- The proxy value returned by the cloud factory (addresses abstracted). -/
inductive CreatedProxy where
  | localProxy (siteID bucketName : String)
  | remoteProxy (peerAddress : Nat) (siteID bucketName : String)
  deriving DecidableEq, Repr

/-- `rand.Uint32() % uint32(len(nodeIDs))`: the owner index selected from the
random draw `u` among `n` owners. -/
def chosenOwnerIndex (u n : Nat) : Nat := u % n

/-- The size of the random source: `rand.Uint32` draws uniformly from
`0 ≤ u < 2^32`. -/
def randUint32Bound : Nat := 2 ^ 32

/-- `ClusterController.RelaySite(peerID)` as used by the factory. -/
def factorySiteID (cc : ClusterControllerEnv) (peerID : String) : String :=
  cc.relaySite peerID

/-- `ClusterController.Partition(siteID)` as used by the factory. -/
def factoryPartition (cc : ClusterControllerEnv) (peerID : String) : Nat :=
  cc.partitionOfSite (factorySiteID cc peerID)

/-- `ClusterController.PartitionOwners(partitionNumber)`. -/
def factoryOwners (cc : ClusterControllerEnv) (peerID : String) : List Nat :=
  cc.partitionOwners (factoryPartition cc peerID)

/-- `nodeIDs[int(rand.Uint32() % uint32(len(nodeIDs)))]`. -/
def factoryChosenNode (cc : ClusterControllerEnv) (peerID : String) (u : Nat) : Nat :=
  (factoryOwners cc peerID).getD
    (chosenOwnerIndex u (factoryOwners cc peerID).length) 0

/-- `CloudBucketProxyFactory.CreateBucketProxy`. -/
def createBucketProxy (cc : ClusterControllerEnv) (localEnv : LocalSiteEnv)
    (u : Nat) (peerID bucketName : String) : Except Err CreatedProxy :=
  if (factoryOwners cc peerID).length = 0 then
    .error .noNodeOwnsPartition
  else if cc.localNodeID = factoryChosenNode cc peerID u then
    if ¬ localEnv.partitionInPool (factoryPartition cc peerID) then
      .error .eNoLocalBucket
    else if ¬ localEnv.siteInPartition (factoryPartition cc peerID)
        (factorySiteID cc peerID) then
      .error .eNoLocalBucket
    else if ¬ localEnv.bucketInSite (factoryPartition cc peerID)
        (factorySiteID cc peerID) bucketName then
      .error .eNoLocalBucket
    else
      .ok (.localProxy (factorySiteID cc peerID) bucketName)
  else
    .ok (.remoteProxy (cc.clusterMemberAddress (factoryChosenNode cc peerID u))
      (factorySiteID cc peerID) bucketName)

instance exceptDecEq {ε α : Type} [DecidableEq ε] [DecidableEq α] :
    DecidableEq (Except ε α) := fun a b =>
  match a, b with
  | .ok x, .ok y => decidable_of_iff (x = y) (by simp)
  | .error e, .error f => decidable_of_iff (e = f) (by simp)
  | .ok _, .error _ => isFalse (by simp)
  | .error _, .ok _ => isFalse (by simp)

/-- The number of `x < N` with `x % r = v` (for `v < r`). -/
theorem count_mod_residue (N r v : Nat) (hr : 0 < r) (hv : v < r) :
    ((Finset.range N).filter (fun u => u % r = v)).card =
      N / r + if v < N % r then 1 else 0 := by
  have h := Nat.count_modEq_card N hr v
  rw [Nat.count_eq_card_filter_range] at h
  have hfilter : ((Finset.range N).filter (fun u => u % r = v))
      = (Finset.range N).filter (fun u => u ≡ v [MOD r]) := by
    apply Finset.filter_congr
    intro x _
    unfold Nat.ModEq
    rw [Nat.mod_eq_of_lt hv]
  rw [hfilter, h, Nat.mod_eq_of_lt hv]

/-- The fixed environment used in the uniformity counterexample: the peer's
site lives on a partition with three owners `10, 20, 30`, none of which is
the local node `99`; member addresses are the node IDs themselves. -/
def cexControllerEnv : ClusterControllerEnv :=
  ⟨99, fun _ => "site1", fun _ => 7, fun _ => [10, 20, 30], fun n => n⟩

/-- Local lookups for the counterexample environment (never reached). -/
def cexLocalSiteEnv : LocalSiteEnv :=
  ⟨fun _ => false, fun _ _ => false, fun _ _ _ => false⟩

theorem cex_proxy_residue (target : Nat) (v : Nat) (hv : v < 3)
    (htarget : target = [10, 20, 30].getD v 0) :
    ((Finset.range randUint32Bound).filter (fun u =>
        createBucketProxy cexControllerEnv cexLocalSiteEnv u "relay1" "default" =
          Except.ok (CreatedProxy.remoteProxy target "site1" "default"))).card =
      ((Finset.range randUint32Bound).filter (fun u => u % 3 = v)).card := by
  refine congrArg Finset.card (Finset.filter_congr ?_)
  intro x _
  have h3 : x % 3 = 0 ∨ x % 3 = 1 ∨ x % 3 = 2 := by omega
  subst htarget
  interval_cases v <;>
    rcases h3 with h | h | h <;>
      simp [createBucketProxy, cexControllerEnv, cexLocalSiteEnv, factoryOwners,
        factoryPartition, factorySiteID, factoryChosenNode, chosenOwnerIndex, h]

/-- C5 counterexample: the owner pick is `rand.Uint32() % len(owners)` over a
uniform 32-bit draw, which is not an equal-probability choice when the owner
count does not divide `2^32`.  With the three owners `10, 20, 30`, owner `10`
is selected by `1431655766` of the `2^32` draws while owner `20` is selected
by `1431655765`, so the two owners do not have equal probability. -/
theorem createBucketProxy_uniform_cex :
    ((Finset.range randUint32Bound).filter (fun u =>
        createBucketProxy cexControllerEnv cexLocalSiteEnv u "relay1" "default" =
          Except.ok (CreatedProxy.remoteProxy 10 "site1" "default"))).card = 1431655766 ∧
    ((Finset.range randUint32Bound).filter (fun u =>
        createBucketProxy cexControllerEnv cexLocalSiteEnv u "relay1" "default" =
          Except.ok (CreatedProxy.remoteProxy 20 "site1" "default"))).card = 1431655765 ∧
    ((Finset.range randUint32Bound).filter (fun u =>
        createBucketProxy cexControllerEnv cexLocalSiteEnv u "relay1" "default" =
          Except.ok (CreatedProxy.remoteProxy 10 "site1" "default"))).card ≠
      ((Finset.range randUint32Bound).filter (fun u =>
        createBucketProxy cexControllerEnv cexLocalSiteEnv u "relay1" "default" =
          Except.ok (CreatedProxy.remoteProxy 20 "site1" "default"))).card := by
  have h10 := cex_proxy_residue 10 0 (by norm_num) rfl
  have h20 := cex_proxy_residue 20 1 (by norm_num) rfl
  have c0 := count_mod_residue randUint32Bound 3 0 (by norm_num) (by norm_num)
  have c1 := count_mod_residue randUint32Bound 3 1 (by norm_num) (by norm_num)
  have e0 : ((Finset.range randUint32Bound).filter (fun u => u % 3 = 0)).card =
      1431655766 := by
    rw [c0]
    norm_num [randUint32Bound]
  have e1 : ((Finset.range randUint32Bound).filter (fun u => u % 3 = 1)).card =
      1431655765 := by
    rw [c1]
    norm_num [randUint32Bound]
  refine ⟨h10.trans e0, h20.trans e1, ?_⟩
  rw [h10.trans e0, h20.trans e1]
  norm_num

/-- C5 (amended): `CreateBucketProxy` selects the owner at index
`rand.Uint32() mod len(owners)`, a near-uniform choice: over the `2^32`
equally likely draws, any two owners' selection counts differ by at most one
(and are exactly equal when the owner count divides `2^32`).  It returns an
error when the owner list is empty; when the chosen owner is the local node
it returns a `CloudLocalBucketProxy` over the local bucket (or
`ENoLocalBucket` when the partition, site, or bucket is absent locally), and
otherwise a `CloudRemoteBucketProxy` addressed to the chosen owner. -/
theorem createBucketProxy_spec (cc : ClusterControllerEnv)
    (localEnv : LocalSiteEnv) (u : Nat) (peerID bucketName : String) :
    (∀ r i j : Nat, 0 < r → i < r → j < r →
      ((Finset.range randUint32Bound).filter
          (fun x => chosenOwnerIndex x r = i)).card ≤
        ((Finset.range randUint32Bound).filter
          (fun x => chosenOwnerIndex x r = j)).card + 1 ∧
      (r ∣ randUint32Bound →
        ((Finset.range randUint32Bound).filter
            (fun x => chosenOwnerIndex x r = i)).card =
          ((Finset.range randUint32Bound).filter
            (fun x => chosenOwnerIndex x r = j)).card)) ∧
    (factoryOwners cc peerID = [] →
      createBucketProxy cc localEnv u peerID bucketName =
        .error .noNodeOwnsPartition) ∧
    (factoryOwners cc peerID ≠ [] →
      cc.localNodeID = factoryChosenNode cc peerID u →
      localEnv.partitionInPool (factoryPartition cc peerID) →
      localEnv.siteInPartition (factoryPartition cc peerID)
        (factorySiteID cc peerID) →
      localEnv.bucketInSite (factoryPartition cc peerID)
        (factorySiteID cc peerID) bucketName →
      createBucketProxy cc localEnv u peerID bucketName =
        .ok (.localProxy (factorySiteID cc peerID) bucketName)) ∧
    (factoryOwners cc peerID ≠ [] →
      cc.localNodeID = factoryChosenNode cc peerID u →
      (¬ localEnv.partitionInPool (factoryPartition cc peerID) ∨
       ¬ localEnv.siteInPartition (factoryPartition cc peerID)
          (factorySiteID cc peerID) ∨
       ¬ localEnv.bucketInSite (factoryPartition cc peerID)
          (factorySiteID cc peerID) bucketName) →
      createBucketProxy cc localEnv u peerID bucketName =
        .error .eNoLocalBucket) ∧
    (factoryOwners cc peerID ≠ [] →
      cc.localNodeID ≠ factoryChosenNode cc peerID u →
      createBucketProxy cc localEnv u peerID bucketName =
        .ok (.remoteProxy
          (cc.clusterMemberAddress (factoryChosenNode cc peerID u))
          (factorySiteID cc peerID) bucketName)) := by
  refine ⟨?_, ?_, ?_, ?_, ?_⟩
  · intro r i j hr hi hj
    simp only [chosenOwnerIndex]
    rw [count_mod_residue randUint32Bound r i hr hi,
      count_mod_residue randUint32Bound r j hr hj]
    constructor
    · split_ifs <;> omega
    · intro hdvd
      rw [Nat.mod_eq_zero_of_dvd hdvd]
      simp
  · intro hempty
    unfold createBucketProxy
    rw [if_pos (by simp [hempty])]
  · intro hne hlocal hpart hsite hbucket
    unfold createBucketProxy
    rw [if_neg (by simp [hne]), if_pos hlocal, if_neg (by simp [hpart]),
      if_neg (by simp [hsite]), if_neg (by simp [hbucket])]
  · intro hne hlocal hmiss
    unfold createBucketProxy
    rw [if_neg (by simp [hne]), if_pos hlocal]
    rcases hmiss with h | h | h
    · rw [if_pos h]
    · by_cases hp : localEnv.partitionInPool (factoryPartition cc peerID)
      · rw [if_neg (by simp [hp]), if_pos h]
      · rw [if_pos hp]
    · by_cases hp : localEnv.partitionInPool (factoryPartition cc peerID)
      · by_cases hs : localEnv.siteInPartition (factoryPartition cc peerID)
            (factorySiteID cc peerID)
        · rw [if_neg (by simp [hp]), if_neg (by simp [hs]), if_pos h]
        · rw [if_neg (by simp [hp]), if_pos hs]
      · rw [if_pos hp]
  · intro hne hnotlocal
    unfold createBucketProxy
    rw [if_neg (by simp [hne]), if_neg hnotlocal]

theorem createBucketProxy_spec_witness :
    createBucketProxy cexControllerEnv cexLocalSiteEnv 5 "relay1" "default" =
      Except.ok (CreatedProxy.remoteProxy 30 "site1" "default") :=
  (createBucketProxy_spec cexControllerEnv cexLocalSiteEnv 5 "relay1"
      "default").2.2.2.2 (by decide) (by decide)

end DeviceDB
